import Mathlib

/-!
Shallow embedding of the dreamervm bytecode virtual machine
(src/common/types.rs, src/core/{stack,memory,state,instruction,code,machine}.rs).

Machine words (Rust u64) are modelled as Nat kept below 2 ^ 64; the checked
arithmetic intrinsics carry their overflow checks explicitly.  Rust panics
(the todo macro in ops::read and ops::write, the remainder operator with a
zero divisor, failing unwrap calls, and out-of-range slice indexing in the
decoder) are modelled by an explicit panic constructor in the result types.
-/

namespace DreamerVM

/-- Rust type alias from src/common/types.rs: pub type Word = u64.
Modelled as Nat; well-formed words are below 2 ^ 64. -/
abbrev Word := Nat

/-- Number of values of a u64. -/
def wordSize : Nat := 2 ^ 64

/-- Largest u64 value, u64::MAX. -/
def wordMax : Nat := wordSize - 1

/-- Function word_bytes from src/common/types.rs: 64 bits / 8 bits per byte. -/
def wordBytes : Nat := 8

/-- The expression pc + 1 on a u64 (wrapping at the word size). -/
def wordInc (a : Word) : Word := (a + 1) % wordSize

/-- Word::checked_add: none exactly when a + b overflows the word width. -/
def checkedAdd (a b : Word) : Option Word :=
  if a + b ≤ wordMax then some (a + b) else none

/-- Word::checked_sub: none exactly when a - b underflows. -/
def checkedSub (a b : Word) : Option Word :=
  if b ≤ a then some (a - b) else none

/-- Word::checked_mul: none exactly when a * b overflows the word width. -/
def checkedMul (a b : Word) : Option Word :=
  if a * b ≤ wordMax then some (a * b) else none

/-- Word::checked_div: none exactly when the divisor is zero. -/
def checkedDiv (a b : Word) : Option Word :=
  if b = 0 then none else some (a / b)

/-- Bitwise complement of a u64 (the Rust operator !a). -/
def wordNot (a : Word) : Word := Nat.xor a wordMax

/-- Constant MAX_STACK_DEPTH from src/core/stack.rs. -/
def MAX_STACK_DEPTH : Nat := 65535

/-- StackError from src/core/stack.rs. -/
inductive StackError
  | Full
  | Empty
deriving DecidableEq

/-- Stack(Vec Word) from src/core/stack.rs.  The push/pop end of the Rust
Vec (its back) is the HEAD of this list, so the list head is the stack top. -/
structure Stack where
  toList : List Word
deriving DecidableEq

/-- Stack::new. -/
def Stack.new : Stack := ⟨[]⟩

/-- Stack::push: fails with Full when the depth is exactly MAX_STACK_DEPTH. -/
def Stack.push (s : Stack) (elem : Word) : Except StackError Stack :=
  if s.toList.length = MAX_STACK_DEPTH then .error .Full
  else .ok ⟨elem :: s.toList⟩

/-- Stack::pop: removes and returns the most recently pushed element. -/
def Stack.pop (s : Stack) : Except StackError (Word × Stack) :=
  match s.toList with
  | [] => .error .Empty
  | x :: xs => .ok (x, ⟨xs⟩)

/-- Stack::depth. -/
def Stack.depth (s : Stack) : Nat := s.toList.length

/-- HashMemory from src/core/memory.rs: a HashMap from Word to Word, modelled
as an association list where insertion shadows earlier bindings. -/
structure HashMemory where
  entries : List (Word × Word)
deriving DecidableEq

/-- HashMemory::new. -/
def HashMemory.new : HashMemory := ⟨[]⟩

/-- LinearlyAddressable::read for HashMemory: an absent address reads as the
default word, zero. -/
def HashMemory.read (m : HashMemory) (address : Word) : Word :=
  match m.entries.lookup address with
  | some v => v
  | none => 0

/-- LinearlyAddressable::write for HashMemory: HashMap::insert. -/
def HashMemory.write (m : HashMemory) (address data : Word) : HashMemory :=
  ⟨(address, data) :: m.entries⟩

/-- Rust type alias: pub type Memory = HashMemory. -/
abbrev Memory := HashMemory

/-- State from src/core/state.rs. -/
structure State where
  pc : Word
  reg : Word
  stack : Stack
  memory : Memory
deriving DecidableEq

/-- State::default / State::new: all fields zero or empty. -/
def State.initial : State :=
  { pc := 0, reg := 0, stack := Stack.new, memory := HashMemory.new }

/-- Instruction from src/core/instruction.rs. -/
inductive Instruction
  | nop
  | halt
  | load
  | store
  | push
  | pop
  | set (w : Word)
  | read
  | write
  | jump
  | jumpIf
  | add
  | sub
  | mul
  | div
  | mod
  | cmp
  | and
  | or
  | not
  | xor
deriving DecidableEq

/-- InstructionParseError from src/core/instruction.rs. -/
inductive InstructionParseError
  | NoData
  | InvalidOpcode
  | MissingLiteral
  | InappropriateLiteral
  | IncompleteLiteral
deriving DecidableEq

/-- Word::from_be_bytes: big-endian base-256 value of a byte list. -/
def wordFromBeBytes (bytes : List Nat) : Nat :=
  bytes.foldl (fun acc b => acc * 256 + b) 0

/-- u64::to_be_bytes: the 8 big-endian bytes of a word. -/
def wordToBeBytes (w : Nat) : List Nat :=
  [w / 2 ^ 56 % 256, w / 2 ^ 48 % 256, w / 2 ^ 40 % 256, w / 2 ^ 32 % 256,
   w / 2 ^ 24 % 256, w / 2 ^ 16 % 256, w / 2 ^ 8 % 256, w % 256]

/-- TryFrom of a byte slice for Instruction (src/core/instruction.rs). -/
def Instruction.tryFrom : List Nat → Except InstructionParseError Instruction
  | [] => .error .NoData
  | b :: rest =>
    if rest ≠ [] then
      if b = 0x06 then
        if rest.length + 1 = 1 + wordBytes then
          .ok (.set (wordFromBeBytes rest))
        else .error .IncompleteLiteral
      else .error .InappropriateLiteral
    else
      match b with
      | 0x00 => .ok .nop
      | 0x01 => .ok .halt
      | 0x02 => .ok .load
      | 0x03 => .ok .store
      | 0x04 => .ok .push
      | 0x05 => .ok .pop
      | 0x07 => .ok .read
      | 0x08 => .ok .write
      | 0x09 => .ok .jump
      | 0x0A => .ok .jumpIf
      | 0x0B => .ok .add
      | 0x0C => .ok .sub
      | 0x0D => .ok .mul
      | 0x0E => .ok .div
      | 0x0F => .ok .mod
      | 0x10 => .ok .cmp
      | 0x11 => .ok .and
      | 0x12 => .ok .or
      | 0x13 => .ok .not
      | 0x14 => .ok .xor
      | 0x06 => .error .MissingLiteral
      | _ => .error .InvalidOpcode

/-- Instruction::to_byte. -/
def Instruction.toByte : Instruction → Nat
  | .nop => 0x00
  | .halt => 0x01
  | .load => 0x02
  | .store => 0x03
  | .push => 0x04
  | .pop => 0x05
  | .set _ => 0x06
  | .read => 0x07
  | .write => 0x08
  | .jump => 0x09
  | .jumpIf => 0x0A
  | .add => 0x0B
  | .sub => 0x0C
  | .mul => 0x0D
  | .div => 0x0E
  | .mod => 0x0F
  | .cmp => 0x10
  | .and => 0x11
  | .or => 0x12
  | .not => 0x13
  | .xor => 0x14

/-- CodeParseError from src/core/code.rs: the instruction-level error together
with the byte offset of the failing opcode byte. -/
structure CodeParseError where
  err : InstructionParseError
  pos : Nat
deriving DecidableEq

/-- Outcome of VecCode::try_from.  The panic constructor models the Rust
panic raised when the slice data[i ..= i + word_bytes()] is out of range
(the buffer ends fewer than 8 bytes after a 0x06 opcode byte). -/
inductive DecodeResult
  | ok (code : List Instruction)
  | error (e : CodeParseError)
  | panic
deriving DecidableEq

/-- The parsing loop of VecCode::try_from (src/core/code.rs).  The first
argument is the not-yet-consumed suffix data[i ..], the second the absolute
byte offset i, the third the accumulator res.  For a 0x06 byte the code
slices data[i ..= i + word_bytes()] — nine bytes — and panics when the
buffer is shorter; for any other byte it slices the single byte data[i]. -/
def decodeLoop : List Nat → Nat → List Instruction → DecodeResult
  | [], _, res => .ok res
  | currByte :: restData, i, res =>
    if currByte = 0x06 then
      match restData with
      | b1 :: b2 :: b3 :: b4 :: b5 :: b6 :: b7 :: b8 :: restData2 =>
        match Instruction.tryFrom
            [currByte, b1, b2, b3, b4, b5, b6, b7, b8] with
        | .ok t => decodeLoop restData2 (i + wordBytes + 1) (res ++ [t])
        | .error e => .error ⟨e, i⟩
      | _ => .panic
    else
      match Instruction.tryFrom [currByte] with
      | .ok t => decodeLoop restData (i + 1) (res ++ [t])
      | .error e => .error ⟨e, i⟩

/-- VecCode::try_from over a whole byte buffer. -/
def VecCode.tryFrom (data : List Nat) : DecodeResult :=
  decodeLoop data 0 []

/-- MachineError from src/core/machine.rs. -/
inductive MachineError
  | InsufficientArguments
  | OutOfBounds
  | StackFull
  | StackEmpty
  | ArithmeticOverflow
  | IllegalInstruction
deriving DecidableEq

/-- Result of one step.  The panic constructor models a Rust panic (the todo
macro, a failing unwrap, or the remainder operator with divisor zero). -/
inductive StepResult
  | ok (s : State)
  | err (e : MachineError)
  | panic
deriving DecidableEq

/-- A call of Stack::pop followed by unwrap: panics when the stack op fails. -/
def popUnwrap (s : Stack) (k : Word → Stack → StepResult) : StepResult :=
  match s.pop with
  | .error _ => .panic
  | .ok (x, s2) => k x s2

/-- A call of Stack::push followed by unwrap: panics when the stack op
fails. -/
def pushUnwrap (s : Stack) (elem : Word) (k : Stack → StepResult) :
    StepResult :=
  match s.push elem with
  | .error _ => .panic
  | .ok s2 => k s2

namespace ops

def OPS_ARITY_LOAD : Nat := 1
def OPS_ARITY_STORE : Nat := 2
def OPS_ARITY_JUMP : Nat := 1
def OPS_ARITY_ADD : Nat := 2
def OPS_ARITY_SUB : Nat := 2
def OPS_ARITY_MUL : Nat := 2
def OPS_ARITY_DIV : Nat := 2
def OPS_ARITY_MOD : Nat := 2
def OPS_ARITY_CMP : Nat := 2
def OPS_ARITY_AND : Nat := 2
def OPS_ARITY_OR : Nat := 2
def OPS_ARITY_NEG : Nat := 1
def OPS_ARITY_XOR : Nat := 2

/-- ops::nop. -/
def nop (state : State) : StepResult :=
  .ok { state with pc := wordInc state.pc }

/-- ops::halt: returns the state unchanged (no pc increment). -/
def halt (state : State) : StepResult :=
  .ok state

/-- ops::load. -/
def load (state : State) : StepResult :=
  if state.stack.depth < OPS_ARITY_LOAD then .err .InsufficientArguments
  else
    popUnwrap state.stack fun address tmp =>
    pushUnwrap tmp (state.memory.read address) fun tmp2 =>
    .ok { state with pc := wordInc state.pc, stack := tmp2 }

/-- ops::store. -/
def store (state : State) : StepResult :=
  if state.stack.depth < OPS_ARITY_STORE then .err .InsufficientArguments
  else
    popUnwrap state.stack fun address tmp =>
    popUnwrap tmp fun data tmp2 =>
    .ok { state with
            pc := wordInc state.pc, stack := tmp2,
            memory := state.memory.write address data }

/-- ops::push: guards the depth against MAX_STACK_DEPTH, then pushes the
register. -/
def push (state : State) : StepResult :=
  if state.stack.depth = MAX_STACK_DEPTH then .err .StackFull
  else
    pushUnwrap state.stack state.reg fun tmp =>
    .ok { state with pc := wordInc state.pc, stack := tmp }

/-- ops::pop: guards against the empty stack, pops the top into the
register. -/
def pop (state : State) : StepResult :=
  if state.stack.depth = 0 then .err .StackEmpty
  else
    popUnwrap state.stack fun top tmp =>
    .ok { state with pc := wordInc state.pc, stack := tmp, reg := top }

/-- ops::set. -/
def set (value : Word) (state : State) : StepResult :=
  .ok { state with pc := wordInc state.pc, reg := value }

/-- ops::read is the Rust todo macro: it panics on every state. -/
def read (_state : State) : StepResult := .panic

/-- ops::write is the Rust todo macro: it panics on every state. -/
def write (_state : State) : StepResult := .panic

/-- ops::jump: pops the target off a CLONE of the stack, so the stack field
of the produced state is the unchanged original stack; only pc changes. -/
def jump (state : State) : StepResult :=
  if state.stack.depth < OPS_ARITY_JUMP then .err .InsufficientArguments
  else
    popUnwrap state.stack fun target _ =>
    .ok { state with pc := target }

/-- ops::add: a is popped first (the top), b second; checked_add guards the
overflow, then a + b is pushed. -/
def add (state : State) : StepResult :=
  if state.stack.depth < OPS_ARITY_ADD then .err .InsufficientArguments
  else
    popUnwrap state.stack fun a s1 =>
    popUnwrap s1 fun b s2 =>
    if (checkedAdd a b).isNone then .err .ArithmeticOverflow
    else
      pushUnwrap s2 (a + b) fun s3 =>
      .ok { state with pc := wordInc state.pc, stack := s3 }

/-- ops::sub: pushes a - b, guarded by checked_sub. -/
def sub (state : State) : StepResult :=
  if state.stack.depth < OPS_ARITY_SUB then .err .InsufficientArguments
  else
    popUnwrap state.stack fun a s1 =>
    popUnwrap s1 fun b s2 =>
    if (checkedSub a b).isNone then .err .ArithmeticOverflow
    else
      pushUnwrap s2 (a - b) fun s3 =>
      .ok { state with pc := wordInc state.pc, stack := s3 }

/-- ops::mul: pushes a * b, guarded by checked_mul. -/
def mul (state : State) : StepResult :=
  if state.stack.depth < OPS_ARITY_MUL then .err .InsufficientArguments
  else
    popUnwrap state.stack fun a s1 =>
    popUnwrap s1 fun b s2 =>
    if (checkedMul a b).isNone then .err .ArithmeticOverflow
    else
      pushUnwrap s2 (a * b) fun s3 =>
      .ok { state with pc := wordInc state.pc, stack := s3 }

/-- ops::div: pushes a / b, guarded by checked_div. -/
def div (state : State) : StepResult :=
  if state.stack.depth < OPS_ARITY_DIV then .err .InsufficientArguments
  else
    popUnwrap state.stack fun a s1 =>
    popUnwrap s1 fun b s2 =>
    if (checkedDiv a b).isNone then .err .ArithmeticOverflow
    else
      pushUnwrap s2 (a / b) fun s3 =>
      .ok { state with pc := wordInc state.pc, stack := s3 }

/-- ops::mod (r#mod): NO zero-divisor guard — the Rust remainder operator
panics when b is zero, modelled by the panic branch. -/
def mod (state : State) : StepResult :=
  if state.stack.depth < OPS_ARITY_MOD then .err .InsufficientArguments
  else
    popUnwrap state.stack fun a s1 =>
    popUnwrap s1 fun b s2 =>
    if b = 0 then .panic
    else
      pushUnwrap s2 (a % b) fun s3 =>
      .ok { state with pc := wordInc state.pc, stack := s3 }

/-- ops::cmp. -/
def cmp (state : State) : StepResult :=
  if state.stack.depth < OPS_ARITY_CMP then .err .InsufficientArguments
  else
    popUnwrap state.stack fun a s1 =>
    popUnwrap s1 fun b s2 =>
    pushUnwrap s2 (if a = b then 1 else 0) fun s3 =>
    .ok { state with pc := wordInc state.pc, stack := s3 }

/-- ops::and. -/
def and (state : State) : StepResult :=
  if state.stack.depth < OPS_ARITY_AND then .err .InsufficientArguments
  else
    popUnwrap state.stack fun a s1 =>
    popUnwrap s1 fun b s2 =>
    pushUnwrap s2 (Nat.land a b) fun s3 =>
    .ok { state with pc := wordInc state.pc, stack := s3 }

/-- ops::or. -/
def or (state : State) : StepResult :=
  if state.stack.depth < OPS_ARITY_OR then .err .InsufficientArguments
  else
    popUnwrap state.stack fun a s1 =>
    popUnwrap s1 fun b s2 =>
    pushUnwrap s2 (Nat.lor a b) fun s3 =>
    .ok { state with pc := wordInc state.pc, stack := s3 }

/-- ops::not: unary, arity OPS_ARITY_NEG. -/
def not (state : State) : StepResult :=
  if state.stack.depth < OPS_ARITY_NEG then .err .InsufficientArguments
  else
    popUnwrap state.stack fun a s1 =>
    pushUnwrap s1 (wordNot a) fun s2 =>
    .ok { state with pc := wordInc state.pc, stack := s2 }

/-- ops::xor. -/
def xor (state : State) : StepResult :=
  if state.stack.depth < OPS_ARITY_XOR then .err .InsufficientArguments
  else
    popUnwrap state.stack fun a s1 =>
    popUnwrap s1 fun b s2 =>
    pushUnwrap s2 (Nat.xor a b) fun s3 =>
    .ok { state with pc := wordInc state.pc, stack := s3 }

end ops

/-- Machine from src/core/machine.rs. -/
structure Machine where
  state : State
  prog : List Instruction

/-- Machine::step.  Read and Write dispatch to the panicking todo stubs;
only JumpIf reaches the catch-all arm returning IllegalInstruction. -/
def Machine.step (state : State) (instruction : Instruction) : StepResult :=
  match instruction with
  | .nop => ops.nop state
  | .halt => ops.halt state
  | .load => ops.load state
  | .store => ops.store state
  | .push => ops.push state
  | .pop => ops.pop state
  | .set x => ops.set x state
  | .read => ops.read state
  | .write => ops.write state
  | .jump => ops.jump state
  | .add => ops.add state
  | .sub => ops.sub state
  | .mul => ops.mul state
  | .div => ops.div state
  | .mod => ops.mod state
  | .cmp => ops.cmp state
  | .and => ops.and state
  | .or => ops.or state
  | .not => ops.not state
  | .xor => ops.xor state
  | _ => .err .IllegalInstruction

/-- Result of a run.  The err constructor carries the machine state at the
moment the failing step was attempted (the Rust question-mark operator
returns before self.state is overwritten).  The outOfFuel constructor is a
model artifact for the unbounded while loop. -/
inductive RunResult
  | ok (s : State)
  | err (e : MachineError) (machineState : State)
  | panic
  | outOfFuel (s : State)
deriving DecidableEq

/-- The while loop of Machine::run: fetch prog[curr_pos], step, write the
state back, return on Halt, then continue from the pc of the new state. -/
def runLoop (prog : List Instruction) : Nat → Word → State → RunResult
  | 0, _, state => .outOfFuel state
  | fuel + 1, currPos, state =>
    if h : currPos < prog.length then
      let currInstruction := prog.get ⟨currPos, h⟩
      match Machine.step state currInstruction with
      | .panic => .panic
      | .err e => .err e state
      | .ok newState =>
        if currInstruction = .halt then .ok newState
        else runLoop prog fuel newState.pc newState
    else .ok state

/-- Machine::run: the loop position starts at the constant 0, not at the
pc stored in the state. -/
def Machine.run (m : Machine) (fuel : Nat) : RunResult :=
  runLoop m.prog fuel 0 m.state

/-- The while loop of Machine::run_callback: identical to runLoop except
that the observer f is invoked on the post-step state and the instruction;
its Unit result is discarded. -/
def runCallbackLoop (f : State → Instruction → Unit) (prog : List Instruction) :
    Nat → Word → State → RunResult
  | 0, _, state => .outOfFuel state
  | fuel + 1, currPos, state =>
    if h : currPos < prog.length then
      let currInstruction := prog.get ⟨currPos, h⟩
      match Machine.step state currInstruction with
      | .panic => .panic
      | .err e => .err e state
      | .ok newState =>
        let _ := f newState currInstruction
        if currInstruction = .halt then .ok newState
        else runCallbackLoop f prog fuel newState.pc newState
    else .ok state

/-- Machine::run_callback: also starts its loop position at the constant 0. -/
def Machine.runCallback (m : Machine) (f : State → Instruction → Unit)
    (fuel : Nat) : RunResult :=
  runCallbackLoop f m.prog fuel 0 m.state

/-! ### Claim theorems -/

/-- Concrete state exercising Jump: the stack holds the single word 5. -/
def jumpExState : State :=
  { pc := 0, reg := 0, stack := ⟨[5]⟩, memory := HashMemory.new }

/-- C1 counterexample: on the state with stack [5], stepping Jump yields a
state whose pc is 5 but whose stack is STILL [5] — the target was popped
off a clone, so the claimed result (stack emptied) is not produced. -/
theorem C1_jump_pop_counterexample :
    Machine.step jumpExState .jump = .ok { jumpExState with pc := 5 } ∧
    Machine.step jumpExState .jump ≠
      .ok { jumpExState with pc := 5, stack := ⟨[]⟩ } := by
  constructor <;> decide

/-- C1 (amended): for every state with a non-empty stack, stepping Jump sets
pc to the top of the stack and leaves the stack, register and memory all
unchanged (the pop acts on a clone of the stack); on an empty stack Jump
fails with InsufficientArguments. -/
theorem C1_jump_amended :
    (∀ (s : State) (top : Word) (rest : List Word),
        s.stack.toList = top :: rest →
        Machine.step s .jump = .ok { s with pc := top }) ∧
    (∀ s : State, s.stack.toList = [] →
        Machine.step s .jump = .err .InsufficientArguments) := by
  constructor
  · intro s top rest h
    simp [Machine.step, ops.jump, Stack.depth, h, ops.OPS_ARITY_JUMP,
      popUnwrap, Stack.pop]
  · intro s h
    simp [Machine.step, ops.jump, Stack.depth, h, ops.OPS_ARITY_JUMP]

/-- C1 witness: the amended theorem applied at the concrete stack [5] and at
the empty initial state. -/
theorem C1_jump_amended_witness :
    Machine.step jumpExState .jump = .ok { jumpExState with pc := 5 } ∧
    Machine.step State.initial .jump = .err .InsufficientArguments :=
  ⟨C1_jump_amended.1 jumpExState 5 [] rfl,
   C1_jump_amended.2 State.initial rfl⟩

/-- Concrete state exercising Mod: the top of the stack (popped first, the
dividend a) is 5, the element beneath it (the divisor b) is 0. -/
def modExState : State :=
  { pc := 0, reg := 0, stack := ⟨[5, 0]⟩, memory := HashMemory.new }

/-- C2: stepping Mod on a state whose divisor (second-from-top element) is
zero PANICS — the Rust remainder operator is unguarded — instead of failing
with the arithmetic error the spec prescribes. -/
theorem C2_mod_zero_divisor_panics :
    Machine.step modExState .mod = .panic ∧
    Machine.step modExState .mod ≠ .err .ArithmeticOverflow := by
  constructor <;> decide

/-- C3: decoding the buffer 0x06 followed by only 4 trailing bytes PANICS
(the slice data[0 ..= 8] is out of range for the 5-byte buffer) instead of
returning the incomplete-literal decode error at offset 0. -/
theorem C3_incomplete_literal_panics :
    VecCode.tryFrom [0x06, 0, 0, 0, 0] = .panic ∧
    VecCode.tryFrom [0x06, 0, 0, 0, 0] ≠
      .error ⟨.IncompleteLiteral, 0⟩ := by
  constructor <;> decide

/-- C4 counterexample: stepping Read on the initial state panics (the todo
stub) rather than returning the illegal-instruction error. -/
theorem C4_read_counterexample :
    Machine.step State.initial .read = .panic ∧
    Machine.step State.initial .read ≠ .err .IllegalInstruction := by
  constructor <;> decide

/-- C4 (amended): stepping JumpIf fails with IllegalInstruction on every
state, but stepping Read or Write panics (the unimplemented todo stubs)
instead of returning an error; decoding the single bytes 0x07, 0x08 and
0x0A succeeds, yielding Read, Write and JumpIf. -/
theorem C4_reserved_amended :
    (∀ s : State,
        Machine.step s .read = .panic ∧
        Machine.step s .write = .panic ∧
        Machine.step s .jumpIf = .err .IllegalInstruction) ∧
    VecCode.tryFrom [0x07] = .ok [.read] ∧
    VecCode.tryFrom [0x08] = .ok [.write] ∧
    VecCode.tryFrom [0x0A] = .ok [.jumpIf] :=
  ⟨fun _ => ⟨rfl, rfl, rfl⟩, by decide, by decide, by decide⟩

/-- C5: when the step of the fetched instruction fails, the run stops
immediately with that error, and the machine state is exactly the state the
loop held going into the failing step (the state of the last successful
step, no field mutated); in particular the one-instruction program Pop run
from the default state fails with StackEmpty and leaves the unmodified
default state. -/
theorem C5_error_stops_run :
    (∀ (prog : List Instruction) (fuel : Nat) (pos : Word) (s : State)
        (e : MachineError) (h : pos < prog.length),
        Machine.step s (prog.get ⟨pos, h⟩) = .err e →
        runLoop prog (fuel + 1) pos s = .err e s) ∧
    Machine.run ⟨State.initial, [.pop]⟩ 1 =
      .err .StackEmpty State.initial := by
  constructor
  · intro prog fuel pos s e h hstep
    simp only [List.get_eq_getElem] at hstep
    simp [runLoop, h, hstep]
  · decide

/-- C5 witness: the general statement applied to the program [Pop], position
0 and the initial state. -/
theorem C5_error_stops_run_witness :
    runLoop [.pop] 1 0 State.initial = .err .StackEmpty State.initial :=
  C5_error_stops_run.1 [.pop] 0 0 State.initial .StackEmpty (by decide)
    (by decide)

/-- Helper: the observed loop computes exactly the silent loop, for every
callback; the Unit result of the callback is discarded. -/
theorem runCallbackLoop_eq_runLoop (f : State → Instruction → Unit)
    (prog : List Instruction) :
    ∀ (fuel : Nat) (pos : Word) (s : State),
      runCallbackLoop f prog fuel pos s = runLoop prog fuel pos s := by
  intro fuel
  induction fuel with
  | zero => intro pos s; rfl
  | succ n ih =>
    intro pos s
    simp only [runCallbackLoop, runLoop]
    split
    · next h =>
      cases hstep : Machine.step s (prog.get ⟨pos, h⟩) <;> simp [hstep, ih]
    · rfl

/-- C9: running in observed mode with any observer callback returns exactly
the same result (final state, error with its accompanying machine state,
panic or fuel exhaustion) as running in silent mode. -/
theorem C9_observer_no_influence (f : State → Instruction → Unit)
    (m : Machine) (fuel : Nat) :
    Machine.runCallback m f fuel = Machine.run m fuel :=
  runCallbackLoop_eq_runLoop f m.prog fuel 0 m.state

/-- C10: both run entry points fetch their first instruction from
instruction index 0 regardless of the pc stored in the state: with the
program [Pop] and an empty stack the run fails with StackEmpty for EVERY
initial pc — had the loop started at the pc of the state, any pc at or
beyond the program length would skip the loop and return ok instead. -/
theorem C10_first_fetch_index_zero :
    ∀ (s : State) (f : State → Instruction → Unit) (fuel : Nat),
      s.stack.toList = [] →
      Machine.run ⟨s, [.pop]⟩ (fuel + 1) = .err .StackEmpty s ∧
      Machine.runCallback ⟨s, [.pop]⟩ f (fuel + 1) = .err .StackEmpty s := by
  intro s f fuel h
  constructor <;>
    simp [Machine.run, Machine.runCallback, runLoop, runCallbackLoop,
      Machine.step, ops.pop, Stack.depth, h]

/-- Concrete state whose pc, 7, lies beyond the one-instruction program used
by the C10 witness. -/
def pcSevenState : State :=
  { pc := 7, reg := 0, stack := Stack.new, memory := HashMemory.new }

/-- C10 witness: with initial pc 7 (beyond the program length 1) both entry
points still execute the Pop at index 0 and fail with StackEmpty. -/
theorem C10_first_fetch_witness :
    Machine.run ⟨pcSevenState, [.pop]⟩ 1 = .err .StackEmpty pcSevenState ∧
    Machine.runCallback ⟨pcSevenState, [.pop]⟩ (fun _ _ => ()) 1 =
      .err .StackEmpty pcSevenState :=
  ⟨(C10_first_fetch_index_zero pcSevenState (fun _ _ => ()) 0 rfl).1,
   (C10_first_fetch_index_zero pcSevenState (fun _ _ => ()) 0 rfl).2⟩

/-- Projection of the Stack constructor. -/
@[simp] lemma Stack.toList_mk (l : List Word) : Stack.toList ⟨l⟩ = l := rfl

/-- C6: for every state within the data-model invariant whose stack holds at
least two words (top a, then b), stepping Add, Sub, Mul or Div fails with
ArithmeticOverflow exactly when the corresponding checked 64-bit operation
on a and b returns none (overflow, underflow, or division by zero);
otherwise it pops a and b, pushes the exact result a OP b, increments pc by
one and leaves register and memory unchanged. -/
theorem C6_checked_arithmetic :
    ∀ (s : State) (a b : Word) (rest : List Word),
      s.stack.toList = a :: b :: rest →
      s.stack.depth ≤ MAX_STACK_DEPTH →
      a < wordSize → b < wordSize → s.pc + 1 < wordSize →
      (Machine.step s .add = match checkedAdd a b with
        | none => .err .ArithmeticOverflow
        | some c => .ok { s with pc := s.pc + 1, stack := ⟨c :: rest⟩ }) ∧
      (Machine.step s .sub = match checkedSub a b with
        | none => .err .ArithmeticOverflow
        | some c => .ok { s with pc := s.pc + 1, stack := ⟨c :: rest⟩ }) ∧
      (Machine.step s .mul = match checkedMul a b with
        | none => .err .ArithmeticOverflow
        | some c => .ok { s with pc := s.pc + 1, stack := ⟨c :: rest⟩ }) ∧
      (Machine.step s .div = match checkedDiv a b with
        | none => .err .ArithmeticOverflow
        | some c => .ok { s with pc := s.pc + 1, stack := ⟨c :: rest⟩ }) := by
  intro s a b rest h hdepth ha hb hpc
  have hs : s.stack = ⟨a :: b :: rest⟩ := by rw [← h]
  have hd : rest.length + 1 + 1 ≤ 65535 := by
    simpa [Stack.depth, h, MAX_STACK_DEPTH] using hdepth
  have hg2 : ¬ rest.length + 1 + 1 < 2 := by omega
  have hfull : ¬ rest.length = 65535 := by omega
  have hinc : (s.pc + 1) % wordSize = s.pc + 1 := Nat.mod_eq_of_lt hpc
  refine ⟨?_, ?_, ?_, ?_⟩
  · rcases le_or_lt (a + b) wordMax with hab | hab
    · simp [Machine.step, ops.add, ops.OPS_ARITY_ADD, hs, Stack.depth, hg2,
        popUnwrap, Stack.pop, pushUnwrap, Stack.push, MAX_STACK_DEPTH,
        hfull, checkedAdd, hab, wordInc, hinc]
    · have hab2 : ¬ a + b ≤ wordMax := Nat.not_le.mpr hab
      simp [Machine.step, ops.add, ops.OPS_ARITY_ADD, hs, Stack.depth, hg2,
        popUnwrap, Stack.pop, checkedAdd, hab2]
  · rcases le_or_lt b a with hab | hab
    · simp [Machine.step, ops.sub, ops.OPS_ARITY_SUB, hs, Stack.depth, hg2,
        popUnwrap, Stack.pop, pushUnwrap, Stack.push, MAX_STACK_DEPTH,
        hfull, checkedSub, hab, wordInc, hinc]
    · have hab2 : ¬ b ≤ a := Nat.not_le.mpr hab
      simp [Machine.step, ops.sub, ops.OPS_ARITY_SUB, hs, Stack.depth, hg2,
        popUnwrap, Stack.pop, checkedSub, hab2]
  · rcases le_or_lt (a * b) wordMax with hab | hab
    · simp [Machine.step, ops.mul, ops.OPS_ARITY_MUL, hs, Stack.depth, hg2,
        popUnwrap, Stack.pop, pushUnwrap, Stack.push, MAX_STACK_DEPTH,
        hfull, checkedMul, hab, wordInc, hinc]
    · have hab2 : ¬ a * b ≤ wordMax := Nat.not_le.mpr hab
      simp [Machine.step, ops.mul, ops.OPS_ARITY_MUL, hs, Stack.depth, hg2,
        popUnwrap, Stack.pop, checkedMul, hab2]
  · rcases eq_or_ne b 0 with hb0 | hb0
    · simp [Machine.step, ops.div, ops.OPS_ARITY_DIV, hs, Stack.depth, hg2,
        popUnwrap, Stack.pop, checkedDiv, hb0]
    · simp [Machine.step, ops.div, ops.OPS_ARITY_DIV, hs, Stack.depth, hg2,
        popUnwrap, Stack.pop, pushUnwrap, Stack.push, MAX_STACK_DEPTH,
        hfull, checkedDiv, hb0, wordInc, hinc]

/-- Concrete state for the C6 witness: stack top a = 5, beneath it b = 3. -/
def c6State : State :=
  { pc := 0, reg := 0, stack := ⟨[5, 3]⟩, memory := HashMemory.new }

/-- C6 witness: on the stack [top 5, then 3] the four operations produce
8, 2, 15 and 1 with pc incremented to 1. -/
theorem C6_checked_arithmetic_witness :
    Machine.step c6State .add = .ok { c6State with pc := 1, stack := ⟨[8]⟩ } ∧
    Machine.step c6State .sub = .ok { c6State with pc := 1, stack := ⟨[2]⟩ } ∧
    Machine.step c6State .mul =
      .ok { c6State with pc := 1, stack := ⟨[15]⟩ } ∧
    Machine.step c6State .div =
      .ok { c6State with pc := 1, stack := ⟨[1]⟩ } := by
  have h := C6_checked_arithmetic c6State 5 3 [] rfl (by decide) (by decide)
    (by decide) (by decide)
  refine ⟨?_, ?_, ?_, ?_⟩
  · simpa [checkedAdd, wordMax, wordSize] using h.1
  · simpa [checkedSub, wordMax, wordSize] using h.2.1
  · simpa [checkedMul, wordMax, wordSize] using h.2.2.1
  · simpa [checkedDiv, wordMax, wordSize] using h.2.2.2

/-- States reachable from the default state by successful steps. -/
inductive Reachable : State → Prop
  | init : Reachable State.initial
  | next (s s2 : State) (i : Instruction) : Reachable s →
      Machine.step s i = .ok s2 → Reachable s2

/-- Helper: one successful step keeps the stack depth at or below
MAX_STACK_DEPTH. -/
theorem step_depth_le {s s2 : State} {i : Instruction}
    (hok : Machine.step s i = .ok s2)
    (hd : s.stack.depth ≤ MAX_STACK_DEPTH) :
    s2.stack.depth ≤ MAX_STACK_DEPTH := by
  obtain ⟨pc, reg, ⟨l⟩, mem⟩ := s
  simp only [Stack.depth, Stack.toList_mk, MAX_STACK_DEPTH] at hd ⊢
  rcases l with _ | ⟨x, _ | ⟨y, t⟩⟩ <;>
    cases i <;>
    simp only [Machine.step, ops.nop, ops.halt, ops.load, ops.store,
      ops.push, ops.pop, ops.set, ops.read, ops.write, ops.jump, ops.add,
      ops.sub, ops.mul, ops.div, ops.mod, ops.cmp, ops.and, ops.or, ops.not,
      ops.xor, ops.OPS_ARITY_LOAD, ops.OPS_ARITY_STORE, ops.OPS_ARITY_JUMP,
      ops.OPS_ARITY_ADD, ops.OPS_ARITY_SUB, ops.OPS_ARITY_MUL,
      ops.OPS_ARITY_DIV, ops.OPS_ARITY_MOD, ops.OPS_ARITY_CMP,
      ops.OPS_ARITY_AND, ops.OPS_ARITY_OR, ops.OPS_ARITY_NEG,
      ops.OPS_ARITY_XOR, Stack.depth, Stack.pop, Stack.push, popUnwrap,
      pushUnwrap, Stack.toList_mk, MAX_STACK_DEPTH, List.length_cons,
      List.length_nil, checkedAdd, checkedSub, checkedMul,
      checkedDiv] at hok <;>
    (try simp only [List.length_cons, List.length_nil] at hd) <;>
    (try split_ifs at hok) <;>
    (try cases hok) <;>
    simp only [Stack.depth, Stack.toList_mk, List.length_cons,
      List.length_nil] <;>
    omega

/-- C7: every state reachable from the default state by successful steps has
stack depth at most 65535 (depth is a Nat, so 0 is a trivial lower bound);
stepping Push at depth 65535 fails with StackFull producing no state, and
stepping Pop at depth 0 fails with StackEmpty. -/
theorem C7_stack_depth_invariant :
    (∀ s : State, Reachable s → s.stack.depth ≤ MAX_STACK_DEPTH) ∧
    (∀ s : State, s.stack.depth = MAX_STACK_DEPTH →
        Machine.step s .push = .err .StackFull) ∧
    (∀ s : State, s.stack.depth = 0 →
        Machine.step s .pop = .err .StackEmpty) := by
  refine ⟨?_, ?_, ?_⟩
  · intro s hr
    induction hr with
    | init => decide
    | next s s2 i hr hok ih => exact step_depth_le hok ih
  · intro s h
    simp [Machine.step, ops.push, h]
  · intro s h
    simp [Machine.step, ops.pop, h]

/-- Concrete state at the maximal stack depth 65535. -/
def fullStackState : State :=
  { pc := 0, reg := 0, stack := ⟨List.replicate 65535 0⟩,
    memory := HashMemory.new }

/-- C7 witness: the invariant at the initial state, Push failing at depth
65535, and Pop failing at depth 0. -/
theorem C7_stack_depth_invariant_witness :
    State.initial.stack.depth ≤ MAX_STACK_DEPTH ∧
    Machine.step fullStackState .push = .err .StackFull ∧
    Machine.step State.initial .pop = .err .StackEmpty :=
  ⟨C7_stack_depth_invariant.1 State.initial Reachable.init,
   C7_stack_depth_invariant.2.1 fullStackState
     (by show Stack.depth ⟨List.replicate 65535 0⟩ = MAX_STACK_DEPTH
         rw [Stack.depth, Stack.toList_mk, List.length_replicate,
           MAX_STACK_DEPTH]),
   C7_stack_depth_invariant.2.2 State.initial rfl⟩

/-- The payload-free rows of the opcode catalogue of src/core/instruction.rs
(every opcode byte except 0x06, paired with its instruction variant). -/
def opcodeTable : List (Nat × Instruction) :=
  [(0x00, .nop), (0x01, .halt), (0x02, .load), (0x03, .store),
   (0x04, .push), (0x05, .pop), (0x07, .read), (0x08, .write),
   (0x09, .jump), (0x0A, .jumpIf), (0x0B, .add), (0x0C, .sub),
   (0x0D, .mul), (0x0E, .div), (0x0F, .mod), (0x10, .cmp),
   (0x11, .and), (0x12, .or), (0x13, .not), (0x14, .xor)]

/-- Helper: reading back the 8 big-endian bytes of a word below 2 ^ 64
reconstructs the word. -/
theorem wordFromBe_toBe (w : Nat) (hw : w < wordSize) :
    wordFromBeBytes (wordToBeBytes w) = w := by
  simp only [wordToBeBytes, wordFromBeBytes, List.foldl]
  simp only [wordSize] at hw
  norm_num
  omega

/-- C8: decoding a single-byte buffer holding any payload-free opcode byte
yields the corresponding instruction variant whose to_byte re-encoding is
the original byte, and decoding 0x06 followed by the 8 big-endian bytes of
any word w yields Set(w). -/
theorem C8_decode_roundtrip :
    (∀ p ∈ opcodeTable,
        VecCode.tryFrom [p.1] = .ok [p.2] ∧ p.2.toByte = p.1) ∧
    (∀ w : Word, w < wordSize →
        VecCode.tryFrom (0x06 :: wordToBeBytes w) = .ok [.set w]) := by
  constructor
  · decide
  · intro w hw
    have hfb := wordFromBe_toBe w hw
    simp only [wordToBeBytes] at hfb ⊢
    norm_num at hfb
    simp [VecCode.tryFrom, decodeLoop, Instruction.tryFrom, wordBytes, hfb]

/-- C8 witness: the round trip at the Nop byte and at the word 300. -/
theorem C8_decode_roundtrip_witness :
    (VecCode.tryFrom [0x00] = .ok [.nop] ∧
      Instruction.toByte .nop = 0x00) ∧
    VecCode.tryFrom (0x06 :: wordToBeBytes 300) = .ok [.set 300] :=
  ⟨C8_decode_roundtrip.1 (0x00, .nop) (by decide),
   C8_decode_roundtrip.2 300 (by norm_num [wordSize])⟩

end DreamerVM
